import Mathlib

/-!
Verification development for the `odin` deep-learning toolkit.

This file gives a shallow Lean embedding of the parts of the repository that
the specification talks about, and proves (or refutes) the specification's
claims against that embedding.  Python functions become Lean functions;
stateful code becomes explicit state passing; numeric values are modelled by
exact rationals or reals; fallible code returns Option or Except.  Each
definition is translated from the corresponding source function, with the
source location recorded in its doc comment.
-/

/-- Python exception kinds raised by the embedded code. -/
inductive PyError where
  | valueError
  | runtimeError
  | assertionError
  | indexError
deriving DecidableEq, Repr

/-!
## Module contents (odin/ml, odin/bay/vi/autoencoder, odin/backend, odin/preprocessing)

Top-level names defined by each module, read off the source files.  Used by
the claims about which components exist and which imports succeed.
-/

/-- Top-level names defined in `odin/ml/scoring.py` (functions and classes,
in source order). -/
def scoringModuleNames : List String :=
  ["_unit_len_norm", "_wccn", "VectorNormalization", "Scorer", "PLDA"]

/-- The names `odin/ml/__init__.py` line 7-8 imports from `.scoring`. -/
def mlInitScoringImports : List String :=
  ["VectorNormalizer", "Scorer", "compute_wccn", "compute_class_avg",
   "compute_within_cov"]

/-- Classes defined in `odin/bay/vi/autoencoder/hierarchical_vae.py`. -/
def hierarchicalVaeClasses : List String :=
  ["StackedVAE", "LadderMergeDistribution", "LadderVAE", "HVAE", "UnetVAE",
   "PUnetVAE", "VeryDeepVAE"]

/-- Classes defined in `odin/backend/keras_helpers.py`. -/
def kerasHelpersClasses : List String :=
  ["Trainer"]

/-- Classes defined in `odin/preprocessing/base.py`. -/
def preprocessingBaseClasses : List String :=
  ["Extractor", "DeltaExtractor", "ShiftedDeltaExtractor", "EqualizeShape0"]

/-- Modelled from the spec: the class of the `odin.preprocessing` package that
runs the speech feature-extraction pipeline.  The class body is not under
`src/`; only its caller is (the speech example constructs
`pp.FeatureProcessor(all_files, extractors, output_path, ...)` and then runs
`processor.run()`, `src/examples/features/speech_features_extraction.py`
line 108), and the spec names the speech feature-extraction pipeline as the
FeatureProcessor pattern. -/
def preprocessingPackageClasses : List String :=
  ["FeatureProcessor"]

/-!
## Trainer.prepare (src/odin/backend/keras_helpers.py lines 398-449)

The tf.data pipeline is embedded as a syntax tree: each dataset-transforming
call of the framework becomes one constructor, so the order in which
`Trainer.prepare` chains the calls is the nesting of the tree.
-/

/-- Value passed to num_parallel_calls / computed from the
parallel_preprocess and parallel_postprocess integers: None (sequential),
tf.data.experimental.AUTOTUNE, or an explicit number of parallel calls. -/
inductive Parallelism where
  | sequential
  | autotune
  | calls (n : Int)
deriving DecidableEq, Repr

/-- The conversion at the top of Trainer.prepare:
None if the value is 0, AUTOTUNE if it is -1, else int(value). -/
def parseParallel (p : Int) : Parallelism :=
  if p = 0 then .sequential
  else if p = -1 then .autotune
  else .calls p

/-- The shuffle argument of Trainer.prepare: None (the default), a Python
number (isinstance(shuffle, Number)), or any other object carrying only its
truthiness.  A Python bool is a Number, so True arrives as numArg 1. -/
inductive ShuffleArg where
  | noneArg
  | numArg (n : Int)
  | otherArg (truthy : Bool)
deriving DecidableEq, Repr

/-- Python truthiness of the shuffle argument. -/
def ShuffleArg.truthy : ShuffleArg → Bool
  | .noneArg => false
  | .numArg n => n != 0
  | .otherArg t => t

/-- Shallow syntax tree of the tf.data.Dataset combinators Trainer.prepare
uses.  Map functions are identified by an opaque tag. -/
inductive TFDataset where
  | source (tag : Nat)
  | shuffle (bufferSize : Int) (reshuffleEachIteration : Bool) (ds : TFDataset)
  | mapDs (fn : Nat) (numParallelCalls : Parallelism) (ds : TFDataset)
  | cache (filename : String) (ds : TFDataset)
  | repeatDs (epochs : Int) (ds : TFDataset)
  | batch (batchSize : Int) (dropRemainder : Bool) (ds : TFDataset)
  | prefetch (bufferSize : Parallelism) (ds : TFDataset)
deriving DecidableEq, Repr

/-- Arguments of Trainer.prepare (defaults as in the source: batch_size=128,
epochs=1, cache the empty string, drop_remainder False, shuffle None,
parallel_preprocess = parallel_postprocess = 0).  preprocess and postprocess
are optional map functions identified by tag. -/
structure PrepareArgs where
  preprocess : Option Nat
  postprocess : Option Nat
  batch_size : Int
  epochs : Int
  cache : Option String
  drop_remainder : Bool
  shuffle : ShuffleArg
  parallel_preprocess : Int
  parallel_postprocess : Int
deriving DecidableEq, Repr

namespace Trainer

/-- Trainer.prepare, src/odin/backend/keras_helpers.py lines 398-449:
optional shuffle, map(preprocess) with cache, repeat, batch, map(postprocess),
prefetch(AUTOTUNE). -/
def prepare (ds : TFDataset) (a : PrepareArgs) : TFDataset :=
  let pPre := parseParallel a.parallel_preprocess
  let pPost := parseParallel a.parallel_postprocess
  let ds :=
    if a.shuffle.truthy then
      match a.shuffle with
      | .numArg n => TFDataset.shuffle n true ds
      | _ => TFDataset.shuffle 10000 true ds
    else ds
  let ds :=
    match a.preprocess with
    | none => ds
    | some f =>
      let ds := TFDataset.mapDs f pPre ds
      match a.cache with
      | none => ds
      | some c => TFDataset.cache c ds
  let ds := TFDataset.batch a.batch_size a.drop_remainder
    (TFDataset.repeatDs a.epochs ds)
  let ds :=
    match a.postprocess with
    | none => ds
    | some f => TFDataset.mapDs f pPost ds
  TFDataset.prefetch .autotune ds

end Trainer

/-!
The pipeline the claim describes, stage by stage, used to compare with the
definition above: shuffle when truthy (buffer int(shuffle) for a number,
10000 otherwise), per-example map of preprocess then cache, repeat, batch
with drop_remainder, whole-minibatch map of postprocess, prefetch.
-/

/-- Claimed shuffle stage. -/
def shuffleStage (s : ShuffleArg) (ds : TFDataset) : TFDataset :=
  if s.truthy then
    TFDataset.shuffle (match s with | .numArg n => n | _ => 10000) true ds
  else ds

/-- Claimed preprocess-then-cache stage (the source caches only when a
preprocess function was given and cache is not None). -/
def preprocessStage (pre : Option Nat) (par : Parallelism)
    (c : Option String) (ds : TFDataset) : TFDataset :=
  match pre with
  | none => ds
  | some f =>
    match c with
    | none => TFDataset.mapDs f par ds
    | some name => TFDataset.cache name (TFDataset.mapDs f par ds)

/-- Claimed postprocess stage. -/
def postprocessStage (post : Option Nat) (par : Parallelism)
    (ds : TFDataset) : TFDataset :=
  match post with
  | none => ds
  | some f => TFDataset.mapDs f par ds

/-!
## Trainer.save_weights / Trainer.restore_weights
(src/odin/backend/keras_helpers.py lines 110-136)

The module-level dictionary _BEST_WEIGHTS maps id(layer) to a stored copy of
the layer's weights.  A world holds every layer's current weights together
with that dictionary; the two static methods walk the flattened model list,
skipping anything that is not a keras Layer.  (The optimizer branch is the
same pattern over _BEST_OPTIMIZER and is not needed by any claim.)
-/

/-- An entry of the flattened models list: a Python object with its id; only
keras layers take part. -/
structure KObj where
  isLayer : Bool
  oid : Nat
deriving DecidableEq, Repr

/-- Current weights of every layer (by id) plus the module-level
_BEST_WEIGHTS store. -/
structure TrainerWorld where
  weights : Nat → List ℚ
  best : Nat → Option (List ℚ)

namespace Trainer

/-- Trainer.save_weights: for every layer in the list, store a copy of its
current weights in _BEST_WEIGHTS under the layer's id, overwriting any
earlier entry. -/
def save_weights : List KObj → TrainerWorld → TrainerWorld
  | [], w => w
  | m :: rest, w =>
    if m.isLayer then
      save_weights rest
        { w with best := Function.update w.best m.oid (some (w.weights m.oid)) }
    else
      save_weights rest w

/-- Trainer.restore_weights: for every layer in the list whose id has an
entry in _BEST_WEIGHTS, set the layer's weights to the stored copy; layers
without an entry are left alone. -/
def restore_weights : List KObj → TrainerWorld → TrainerWorld
  | [], w => w
  | m :: rest, w =>
    if m.isLayer then
      match w.best m.oid with
      | some v =>
        restore_weights rest
          { w with weights := Function.update w.weights m.oid v }
      | none => restore_weights rest w
    else
      restore_weights rest w

end Trainer

/-!
## Trainer.early_stop (src/odin/backend/keras_helpers.py lines 272-349)

Loss values are IEEE floats in the source; they are embedded as an exact
value type: NaN, plus or minus infinity, or a finite rational.  The source
only inspects non-finite values through np.isnan/np.isinf on the last loss
and through max(2., min_epoch); once those checks have passed with every
entry finite, the arithmetic is over finite floats and is embedded over the
rationals.  (Float arithmetic that mixes non-finite intermediate values is
not modelled: no claim touches it, and the embedding returns no signal
there.)
-/

/-- An IEEE float as the early-stop logic observes it. -/
inductive FP where
  | nan
  | pinf
  | ninf
  | fin (q : ℚ)
deriving DecidableEq, Repr

/-- np.isnan(x) or np.isinf(x). -/
def FP.isNanOrInf : FP → Bool
  | .fin _ => false
  | _ => true

/-- The finite value, if any. -/
def FP.toFinite : FP → Option ℚ
  | .fin q => some q
  | _ => none

/-- All entries finite, as rationals. -/
def allFinite (l : List FP) : Option (List ℚ) :=
  l.mapM FP.toFinite

/-- The two signal strings of the Trainer class. -/
inductive Signal where
  | terminate
  | best
deriving DecidableEq, Repr

/-- np.min of a list (only ever applied to a non-empty one). -/
def qmin : List ℚ → ℚ
  | [] => 0
  | x :: xs => xs.foldl min x

/-- The last k entries of a list, Python l[-k:] for k of at least 1. -/
def lastN (k : Nat) (l : List ℚ) : List ℚ :=
  l.drop (l.length - k)

/-- len(losses) < max(2., min_epoch): the warmup test of early_stop.  Python
max(2., nan) is 2., so a NaN min_epoch behaves like the default. -/
def lenLtWarmup (len : Nat) (min_epoch : FP) : Bool :=
  match min_epoch with
  | .pinf => true
  | .fin m => decide ((len : ℚ) < max 2 m)
  | _ => decide ((len : ℚ) < 2)

/-- The all-finite tail of Trainer.early_stop: the patience rule, the
generalization-improved rule, and the progression-thresholded rule, in the
source's order. -/
def earlyStopFinite (qs : List ℚ) (threshold : ℚ)
    (progress_length patience : Int) : Option Signal :=
  let current := qs.getLastD 0
  let best := qmin qs.dropLast
  if 1 < patience && patience < (qs.length : Int) &&
      (lastN patience.toNat qs).all (fun i => decide (threshold / 2 ≤ i / best - 1))
  then some .terminate
  else
    let generalization := current / best - 1
    if generalization ≤ 0 then some .best
    else
      let progression :=
        if 1 < progress_length then
          let progress := lastN progress_length.toNat qs
          10 * (progress.sum / ((progress_length : ℚ) * qmin progress) - 1)
        else 1
      if threshold ≤ generalization / progression then some .terminate
      else none

namespace Trainer

/-- Trainer.early_stop, src/odin/backend/keras_helpers.py lines 272-349.
Returns none where the Python function falls through without a signal. -/
def early_stop (losses : List FP) (threshold : ℚ)
    (progress_length patience : Int) (min_epoch : FP)
    (terminate_on_nan : Bool) : Option Signal :=
  if losses.length = 0 then none
  else if terminate_on_nan && (losses.getLastD .nan).isNanOrInf then
    some .terminate
  else if lenLtWarmup losses.length min_epoch then some .best
  else
    match allFinite losses with
    | some qs => earlyStopFinite qs threshold progress_length patience
    | none => none

end Trainer

/-!
## odin/ml/scoring.py

Matrices are lists of rows of reals (numpy float arrays idealised as exact
reals).  The sklearn objects the module drives (LinearDiscriminantAnalysis,
SVC) are external libraries: they enter the embedding as opaque functions.
-/

/-- A numpy 2-d array: a list of rows. -/
abbrev Mat : Type := List (List ℝ)

/-- Row sum of squares, np.sum(x ** 2, axis=-1) for one row. -/
noncomputable def sumSq (r : List ℝ) : ℝ :=
  (r.map (fun v => v * v)).sum

/-- One row of _unit_len_norm (src/odin/ml/scoring.py lines 15-18): the
Euclidean norm of the row, with zero norms replaced by 1, divides the row. -/
noncomputable def normRow (r : List ℝ) : List ℝ :=
  let n := Real.sqrt (sumSq r)
  let n := if n = 0 then 1 else n
  r.map (fun v => v / n)

/-- _unit_len_norm (src/odin/ml/scoring.py lines 15-18): length-normalise
every row, leaving all-zero rows alone. -/
noncomputable def unit_len_norm (x : Mat) : Mat :=
  x.map normRow

/-- Row-broadcast subtraction, X - M for M of shape [1, d]. -/
noncomputable def matSubRow (x : Mat) (m : List ℝ) : Mat :=
  x.map (fun r => r.zipWith (fun a b => a - b) m)

/-- Dot product of two rows. -/
noncomputable def dotProd (a b : List ℝ) : ℝ :=
  (a.zipWith (fun u v => u * v) b).sum

/-- The _w attribute: the scalar 1 when wccn was off, else the WCCN matrix,
stored column-wise so that np.dot(X, w) maps each row over the columns. -/
inductive WVal where
  | scalar (c : ℝ)
  | matCols (cols : List (List ℝ))

/-- np.dot(X, w) for the two shapes of _w. -/
noncomputable def dotW (x : Mat) (w : WVal) : Mat :=
  match w with
  | .scalar c => x.map (fun r => r.map (fun v => v * c))
  | .matCols cols => x.map (fun r => cols.map (fun col => dotProd r col))

/-- Elementwise 2 * (X - tMin) / (tMax - tMin) - 1 with tMin, tMax of shape
[1, d] (the SVM input scaling of Scorer.fit and Scorer.transform). -/
noncomputable def svmScale (x : Mat) (tMin tMax : List ℝ) : Mat :=
  x.map (fun r =>
    List.zipWith3 (fun v lo hi => 2 * (v - lo) / (hi - lo) - 1) r tMin tMax)

/-- np.dot(test_ivectors, model_ivectors.T): every test row against every
enrolled class row. -/
noncomputable def cosineScores (test enroll : Mat) : Mat :=
  test.map (fun r => enroll.map (fun e => dotProd r e))

/-- The validated _method attribute: Scorer.__init__ admits exactly the
strings cosine and svm. -/
inductive ScoreMethod where
  | cosine
  | svm
deriving DecidableEq, Repr

/-- The attributes Scorer.fit sets (the scorer counts as fitted exactly when
_w exists; fit sets _mean, _w, _enroll_vecs together, and _tMin, _tMax and
the fitted SVC for the svm method — the svm fields are read only on that
path).  The fitted sklearn SVC's predict_log_proba is opaque. -/
structure ScorerFit where
  mean : List ℝ
  w : WVal
  enroll_vecs : Mat
  tMin : List ℝ
  tMax : List ℝ
  svmScore : Mat → Mat

/-- The Scorer state (src/odin/ml/scoring.py lines 127-272).  ldaTransform
abstracts the _lda attribute: none when lda=False, else the transform the
sklearn LinearDiscriminantAnalysis applies once fit has fitted it. -/
structure Scorer where
  wccn : Bool
  ldaTransform : Option (Mat → Mat)
  feat_dim : Option Nat
  labels : Option (List Int)
  method : ScoreMethod
  fitState : Option ScorerFit

namespace Scorer

/-- Scorer.__init__ (src/odin/ml/scoring.py lines 130-140): lower-case the
method string and raise ValueError unless it is cosine or svm.  ldaOracle
stands for the sklearn LDA object created when lda is truthy. -/
def init (wccn lda : Bool) (ldaOracle : Mat → Mat) (method : String)
    (labels : Option (List Int)) : Except PyError Scorer :=
  let m := method.toLower
  if m = "cosine" then
    .ok ⟨wccn, if lda then some ldaOracle else none, none, labels, .cosine, none⟩
  else if m = "svm" then
    .ok ⟨wccn, if lda then some ldaOracle else none, none, labels, .svm, none⟩
  else
    .error .valueError

/-- is_fitted (src/odin/ml/scoring.py lines 163-165): hasattr(self, '_w'). -/
def is_fitted (s : Scorer) : Bool :=
  s.fitState.isSome

/-- The body of Scorer.normalize once the fitted check has passed: subtract
the global mean, whiten with _w, length-normalise, then LDA-transform when
an LDA is present. -/
noncomputable def normalizeFitted (fs : ScorerFit) (lda : Option (Mat → Mat))
    (X : Mat) : Mat :=
  let X := matSubRow X fs.mean
  let X := dotW X fs.w
  let X := unit_len_norm X
  match lda with
  | none => X
  | some f => f X

/-- Scorer.normalize (src/odin/ml/scoring.py lines 196-204): RuntimeError
before fit, else the normalisation pipeline.  The scorer itself is returned
unchanged: the method only reads its state. -/
noncomputable def normalize (s : Scorer) (X : Mat) :
    Scorer × Except PyError Mat :=
  match s.fitState with
  | none => (s, .error .runtimeError)
  | some fs => (s, .ok (normalizeFitted fs s.ldaTransform X))

/-- Scorer.transform (src/odin/ml/scoring.py lines 256-272): RuntimeError
before fit; otherwise normalize, then cosine scores against the enrolled
vectors, or the SVC's log-probabilities of the rescaled input. -/
noncomputable def transform (s : Scorer) (X : Mat) :
    Scorer × Except PyError Mat :=
  match s.fitState with
  | none => (s, .error .runtimeError)
  | some fs =>
    let Xn := normalizeFitted fs s.ldaTransform X
    match s.method with
    | .cosine => (s, .ok (cosineScores (unit_len_norm Xn) fs.enroll_vecs))
    | .svm => (s, .ok (fs.svmScore (svmScale Xn fs.tMin fs.tMax)))

end Scorer

/-!
## StackedVAE (src/odin/bay/vi/autoencoder/hierarchical_vae.py lines 22-191)

The embedding is parametric over the tensor type and the distribution type.
The keras sub-networks (encoder, decoder, the ladder hidden networks) and
the distribution layers are opaque functions; a distribution layer keeps the
name its RVmeta gave it, because elbo_components builds dictionary keys from
those names.  tf.convert_to_tensor on a distribution (sampling it) and
dist.mean() are opaque operations of the probability library; KL values are
embedded as rationals so that the beta-scaled dictionary entries can be
compared exactly.

The parent class AnnealingVAE is not under src/: its elbo_components is an
opaque function producing the base log-likelihood and KL dictionaries, and
its call protocol (last_outputs = (P, Q) with Q = encode(inputs) and
P = decode(Q)) is taken from the StackedVAE docstring describing encode and
decode.
-/

/-- A distribution layer together with the name used in dictionary keys. -/
structure NamedLayer (t d : Type) where
  name : String
  call : t → d

/-- The state of a StackedVAE (src constructor lines 76-130): ladder_encoder
and ladder_qz are index-aligned with ladder_hiddens/ladder_latents;
ladder_decoder was built from ladder_hiddens reversed, and decode walks
ladder_pz reversed. -/
structure StackedVAEModel (t d v : Type) [Mul v] where
  encoder : t → t
  decoder : t → t
  observationLayer : t → d
  latentsLayer : t → d
  ladder_encoder : List (t → t)
  ladder_decoder : List (t → t)
  ladder_qz : List (NamedLayer t d)
  ladder_pz : List (NamedLayer t d)
  toTensor : d → t
  distMean : d → t
  stochastic_inference : Bool
  only_mean_up : Bool
  all_standard_prior : Bool
  beta : v
  kl_div : d → d → v
  klSelf : d → v
  parent_llk : t → List (String × v)
  parent_kl : t → List (String × v)

namespace StackedVAEModel

variable {t d v : Type} [Mul v]

/-- The bottom-up loop of StackedVAE.encode (lines 139-150): for each
(ladder encoder, ladder posterior layer) pair, produce the posterior of the
current hidden state, then move up stochastically (through a sample),
or deterministically (through the mean when only_mean_up, else the hidden
itself).  Returns the final hidden state and the posteriors in production
order. -/
def encodeLoop (m : StackedVAEModel t d v) :
    List ((t → t) × NamedLayer t d) → t → t × List d
  | [], h => (h, [])
  | (e, z) :: rest, h =>
    let qz := z.call h
    let h1 :=
      if m.stochastic_inference then e (m.toTensor qz)
      else e (if m.only_mean_up then m.distMean qz else h)
    let next := encodeLoop m rest h1
    (next.1, qz :: next.2)

/-- The hidden state encode returns when only_encoding is true (line 152). -/
def encodeHidden (m : StackedVAEModel t d v) (inputs : t) : t :=
  (encodeLoop m (m.ladder_encoder.zip m.ladder_qz) (m.encoder inputs)).1

/-- The posteriors of one encode pass in the order they are produced:
bottom-up ladder posteriors, then the top latent from self.latents
(lines 138-157). -/
def bottomUpPosteriors (m : StackedVAEModel t d v) (inputs : t) : List d :=
  let step := encodeLoop m (m.ladder_encoder.zip m.ladder_qz) (m.encoder inputs)
  step.2 ++ [m.latentsLayer step.1]

/-- StackedVAE.encode with only_encoding false (lines 136-158): the produced
posteriors, reversed, so the top-most latent comes first. -/
def encode (m : StackedVAEModel t d v) (inputs : t) : List d :=
  (m.bottomUpPosteriors inputs).reverse

/-- The top-down loop of StackedVAE.decode (lines 163-167): for each
(ladder decoder, ladder prior layer) pair — the prior layers arrive already
reversed — map the hidden state down and record the prior.  Returns the
final hidden state and the priors in production order. -/
def decodeLoop (m : StackedVAEModel t d v) :
    List ((t → t) × NamedLayer t d) → t → t × List d
  | [], h => (h, [])
  | (dl, z) :: rest, h =>
    let h1 := dl h
    let pz := z.call h1
    let next := decodeLoop m rest h1
    (next.1, pz :: next.2)

/-- The top-down pass from the top latent: convert it to a tensor and run the
ladder decoders against ladder_pz reversed (lines 161-167). -/
def topDownPass (m : StackedVAEModel t d v) (l0 : d) : t × List d :=
  decodeLoop m (m.ladder_decoder.zip m.ladder_pz.reverse) (m.toTensor l0)

/-- The hidden state decode returns when only_decoding is true (line 170). -/
def decodeHidden (m : StackedVAEModel t d v) (l0 : d) : t :=
  m.decoder (m.topDownPass l0).1

/-- StackedVAE.decode with only_decoding false (lines 160-173): none on an
empty latents tuple (latents[0] would raise IndexError), else the
observation distribution first, then the ladder priors in production
order — the source appends the observation last and returns
tuple([outputs[-1]] + outputs[:-1]). -/
def decode (m : StackedVAEModel t d v) (latents : List d) : Option (List d) :=
  match latents with
  | [] => none
  | l0 :: _ =>
    some (m.observationLayer (m.decodeHidden l0) :: (m.topDownPass l0).2)

/-- The KL-dictionary entries the loop of elbo_components appends
(lines 181-190): zip of Q[1:], P[1:] and self.ladder_qz, one kl_ entry per
triple, or klq_/klp_ entries against the standard prior when
all_standard_prior. -/
def elboExtra (m : StackedVAEModel t d v) :
    List d → List d → List (NamedLayer t d) → List (String × v)
  | q :: qs, p :: ps, z :: zs =>
    (if m.all_standard_prior then
      [("klq_" ++ z.name, m.beta * m.klSelf q),
       ("klp_" ++ z.name, m.beta * m.klSelf p)]
     else
      [("kl_" ++ z.name, m.beta * m.kl_div q p)]) ++ m.elboExtra qs ps zs
  | _, _, _ => []

/-- StackedVAE.elbo_components (lines 175-191): the parent dictionaries with
the ladder KL entries appended.  last_outputs is (P, Q) with Q the encode
result and P the decode result on it; Q is never empty, so the decode
default is unreachable. -/
def elbo_components (m : StackedVAEModel t d v) (inputs : t) :
    List (String × v) × List (String × v) :=
  let llk := m.parent_llk inputs
  let kl := m.parent_kl inputs
  let Q := m.encode inputs
  let P := (m.decode Q).getD []
  (llk, kl ++ m.elboExtra (Q.drop 1) (P.drop 1) m.ladder_qz)

end StackedVAEModel

/-!
## DistributionDense (src/odin/networks/stat_layers.py lines 63-248)

Statistic (odin.bay.helpers) is a flag enum over SAMPLE, MEAN, VAR, STDDEV
and DIST; call tests Statistic.DIST == call_mode for the distribution-only
path and flag membership for the others.  The Dense parameter layer, the
posterior DistributionLambda and the Moments/Sampling helper layers are
opaque functions; dtypes are opaque tags.
-/

/-- The Statistic flag enum as a set of flags. -/
structure Statistic where
  sample : Bool
  mean : Bool
  var : Bool
  stddev : Bool
  dist : Bool
deriving DecidableEq, Repr

/-- Statistic.DIST. -/
def Statistic.DIST : Statistic :=
  ⟨false, false, false, false, true⟩

/-- Statistic.SAMPLE. -/
def Statistic.SAMPLE : Statistic :=
  ⟨true, false, false, false, false⟩

/-- What a DistributionDense call can hand back: the distribution object
itself, a single statistic tensor, or a tuple mixing statistic tensors and
the distribution. -/
inductive CallValue (t d : Type) where
  | dist (v : d)
  | tensor (v : t)
  | tuple (entries : List (t ⊕ d))
deriving DecidableEq, Repr

/-- The descriptor of a posterior DistributionLambda: its params_size and
the distribution it parameterises from a parameter tensor. -/
structure PosteriorSpec (t d : Type) where
  paramsSize : Nat → Nat
  makeDist : t → d

/-- The state of a DistributionDense layer (src/odin/networks/stat_layers.py
lines 87-127): the Dense layer producing the parameter vector, the posterior
DistributionLambda, the flags of the default call mode, the weight dtype and
the last parameterised distribution; plus the opaque Sampling, Moments and
sqrt helper layers used by the non-DIST paths of call. -/
structure DistributionDense (t d : Type) where
  units : Nat
  denseUnits : Nat
  dense : t → t
  posteriorLambda : t → d
  call_mode : Statistic
  wdtype : Nat
  last_distribution : Option d
  sampling : Int → d → t
  momentsMean : d → t
  momentsVar : d → t
  sqrtT : t → t

namespace DistributionDense

variable {t d : Type}

/-- DistributionDense.__init__ (lines 87-127): the Sequential of a Dense
layer with posterior.params_size(units) output units and the posterior
DistributionLambda; no distribution parameterised yet.  denseLayer builds
the Dense layer from its unit count. -/
def init (units : Nat) (posterior : PosteriorSpec t d)
    (denseLayer : Nat → t → t) (callMode : Statistic) (wdtype : Nat)
    (sampling : Int → d → t) (momentsMean momentsVar : d → t)
    (sqrtT : t → t) : DistributionDense t d :=
  { units := units
    denseUnits := posterior.paramsSize units
    dense := denseLayer (posterior.paramsSize units)
    posteriorLambda := posterior.makeDist
    call_mode := callMode
    wdtype := wdtype
    last_distribution := none
    sampling := sampling
    momentsMean := momentsMean
    momentsVar := momentsVar
    sqrtT := sqrtT }

/-- self._distribution: the Sequential of the Dense parameter layer and the
posterior DistributionLambda. -/
def distributionFn (m : DistributionDense t d) : t → d :=
  fun x => m.posteriorLambda (m.dense x)

/-- The posterior property (lines 153-157): the last parameterised
distribution. -/
def posterior (m : DistributionDense t d) : Option d :=
  m.last_distribution

/-- DistributionDense.call (lines 204-248).  The input is a fresh tensor
(no cached _distribution attribute), so every statistic helper
parameterises the distribution through self._distribution.  Raises
RuntimeError when the input dtype differs from the weights' dtype; when the
call mode is exactly Statistic.DIST, returns the parameterised distribution
and records it; otherwise collects the requested statistics (each tagged
with the distribution it came from), appends the distribution itself when
the DIST flag rides along (an assert demands some statistic then), and
returns a lone statistic bare or several as a tuple. -/
def call (m : DistributionDense t d) (x : t) (xdtype : Nat) (n_samples : Int)
    (mode : Option Statistic) :
    Except PyError (CallValue t d × DistributionDense t d) :=
  if xdtype ≠ m.wdtype then .error .runtimeError
  else
    let call_mode := match mode with | some s => s | none => m.call_mode
    if call_mode = Statistic.DIST then
      let dv := m.distributionFn x
      .ok (.dist dv, { m with last_distribution := some dv })
    else
      let dv := m.distributionFn x
      let n := if n_samples ≤ 0 then 1 else n_samples
      let results : List (t × d) :=
        (if call_mode.sample then [(m.sampling n dv, dv)] else []) ++
        (if call_mode.mean then [(m.momentsMean dv, dv)] else []) ++
        (if call_mode.var then [(m.momentsVar dv, dv)] else []) ++
        (if call_mode.stddev then [(m.sqrtT (m.momentsVar dv), dv)] else [])
      let m1 :=
        if call_mode.sample || call_mode.mean || call_mode.var ||
            call_mode.stddev then
          { m with last_distribution := some dv }
        else m
      if call_mode.dist then
        match results with
        | [] => .error .assertionError
        | first :: _ =>
          .ok (.tuple (results.map (fun p => Sum.inl p.1) ++
            [Sum.inr first.2]), m1)
      else
        match results with
        | [] => .error .indexError
        | [single] => .ok (.tensor single.1, m1)
        | _ => .ok (.tuple (results.map (fun p => Sum.inl p.1)), m1)

end DistributionDense

/-!
## Theorems
-/

/-- C3: every core component the spec names is defined in the source: the
five hierarchical-VAE classes in odin/bay/vi/autoencoder/hierarchical_vae.py,
the Trainer class in odin/backend/keras_helpers.py, and the FeatureProcessor
of the odin.preprocessing package (spec-modelled: the class body is outside
src/, its caller is the speech feature-extraction example). -/
theorem core_components_defined :
    "StackedVAE" ∈ hierarchicalVaeClasses
    ∧ "LadderVAE" ∈ hierarchicalVaeClasses
    ∧ "HVAE" ∈ hierarchicalVaeClasses
    ∧ "UnetVAE" ∈ hierarchicalVaeClasses
    ∧ "PUnetVAE" ∈ hierarchicalVaeClasses
    ∧ "Trainer" ∈ kerasHelpersClasses
    ∧ "FeatureProcessor" ∈ preprocessingPackageClasses := by
  decide

/-- C4: the import list of odin/ml/__init__.py is not satisfied by
odin/ml/scoring.py: of the five names the package imports from .scoring only
Scorer is defined there — scoring defines VectorNormalization, not
VectorNormalizer, and none of compute_wccn, compute_class_avg,
compute_within_cov — so importing odin.ml raises ImportError instead of
binding the five names. -/
theorem ml_scoring_imports_unsatisfied :
    mlInitScoringImports.all (fun n => scoringModuleNames.contains n) = false
    ∧ "Scorer" ∈ mlInitScoringImports ∧ "Scorer" ∈ scoringModuleNames
    ∧ "VectorNormalizer" ∈ mlInitScoringImports
    ∧ "VectorNormalizer" ∉ scoringModuleNames
    ∧ "compute_wccn" ∈ mlInitScoringImports
    ∧ "compute_wccn" ∉ scoringModuleNames
    ∧ "compute_class_avg" ∈ mlInitScoringImports
    ∧ "compute_class_avg" ∉ scoringModuleNames
    ∧ "compute_within_cov" ∈ mlInitScoringImports
    ∧ "compute_within_cov" ∉ scoringModuleNames
    ∧ "VectorNormalization" ∈ scoringModuleNames := by
  decide

/-- C5: Trainer.prepare chains the pipeline in the fixed order
shuffle - map(preprocess) - cache - repeat - batch - map(postprocess) -
prefetch(AUTOTUNE), with the claimed shuffle buffer sizes, and interprets
each parallelism integer as: 0 sequential, -1 AUTOTUNE, positive values as
exactly that many parallel calls. -/
theorem trainer_prepare_spec :
    (∀ (ds : TFDataset) (a : PrepareArgs),
      Trainer.prepare ds a =
        TFDataset.prefetch .autotune
          (postprocessStage a.postprocess (parseParallel a.parallel_postprocess)
            (TFDataset.batch a.batch_size a.drop_remainder
              (TFDataset.repeatDs a.epochs
                (preprocessStage a.preprocess
                  (parseParallel a.parallel_preprocess) a.cache
                  (shuffleStage a.shuffle ds))))))
    ∧ parseParallel 0 = .sequential
    ∧ parseParallel (-1) = .autotune
    ∧ (∀ n : Int, 0 < n → parseParallel n = .calls n) := by
  refine ⟨?_, rfl, rfl, ?_⟩
  · intro ds a
    obtain ⟨pre, post, bs, ep, ca, dr, sh, pp, pq⟩ := a
    cases sh <;> cases pre <;> cases ca <;> cases post <;> rfl
  · intro n hn
    have h0 : ¬n = 0 := by omega
    have h1 : ¬n = -1 := by omega
    simp [parseParallel, h0, h1]

/-- C5 witness: the pipeline equation and the parallelism readings at a
concrete dataset and concrete arguments. -/
theorem trainer_prepare_witness :
    Trainer.prepare (TFDataset.source 0)
        ⟨some 1, some 2, 128, 1, some "", false, .numArg 7, 3, -1⟩ =
      TFDataset.prefetch .autotune
        (postprocessStage (some 2) (parseParallel (-1))
          (TFDataset.batch 128 false
            (TFDataset.repeatDs 1
              (preprocessStage (some 1) (parseParallel 3) (some "")
                (shuffleStage (.numArg 7) (TFDataset.source 0))))))
    ∧ parseParallel 3 = .calls 3 :=
  ⟨trainer_prepare_spec.1 (TFDataset.source 0)
      ⟨some 1, some 2, 128, 1, some "", false, .numArg 7, 3, -1⟩,
    trainer_prepare_spec.2.2.2 3 (by omega)⟩

/-- A concrete world for the save/restore witness: every layer currently
holds weights [1] and nothing has been saved. -/
def demoWorld : TrainerWorld :=
  { weights := fun _ => [1], best := fun _ => none }

/-- C6: saving a layer's weights and restoring them later — with the
in-memory store untouched in between, whatever happened to the live
weights — brings back exactly the weights at save time; a save always
overwrites the stored entry with the current weights (only the latest
version is kept); and restoring a layer that was never saved changes
nothing. -/
theorem trainer_save_restore_spec (m : KObj) (hm : m.isLayer = true)
    (w : TrainerWorld) (f : Nat → List ℚ) :
    (Trainer.restore_weights [m]
        { weights := f, best := (Trainer.save_weights [m] w).best }).weights m.oid
      = w.weights m.oid
    ∧ (∀ w2 : TrainerWorld,
        (Trainer.save_weights [m] w2).best m.oid = some (w2.weights m.oid))
    ∧ (w.best m.oid = none → Trainer.restore_weights [m] w = w) := by
  refine ⟨?_, ?_, ?_⟩
  · simp [Trainer.save_weights, Trainer.restore_weights, hm,
      Function.update_same]
  · intro w2
    simp [Trainer.save_weights, hm, Function.update_same]
  · intro hb
    simp [Trainer.restore_weights, hm, hb]

/-- C6 witness: the save/restore round trip at one concrete layer and
world. -/
theorem trainer_save_restore_witness :
    (Trainer.restore_weights [KObj.mk true 0]
        { weights := fun _ => [2],
          best := (Trainer.save_weights [KObj.mk true 0] demoWorld).best }).weights
        (KObj.mk true 0).oid
      = demoWorld.weights (KObj.mk true 0).oid
    ∧ (∀ w2 : TrainerWorld,
        (Trainer.save_weights [KObj.mk true 0] w2).best (KObj.mk true 0).oid
          = some (w2.weights (KObj.mk true 0).oid))
    ∧ (demoWorld.best (KObj.mk true 0).oid = none →
        Trainer.restore_weights [KObj.mk true 0] demoWorld = demoWorld) :=
  trainer_save_restore_spec (KObj.mk true 0) rfl demoWorld (fun _ => [2])


/-- A list of finite losses converts back to its rationals. -/
theorem allFinite_map_fin : ∀ qs : List ℚ, allFinite (qs.map FP.fin) = some qs
  | [] => rfl
  | a :: t => by
    have ih := allFinite_map_fin t
    simp only [allFinite, List.map_cons, List.mapM_cons] at *
    rw [ih]
    rfl

/-- The last of a list of finite losses, with a finite default, is the
finite last loss. -/
theorem getLastD_map_fin :
    ∀ (t : List ℚ) (x : ℚ),
      (t.map FP.fin).getLastD (FP.fin x) = FP.fin (t.getLastD x)
  | [], _ => rfl
  | b :: t, _ => by
    simp only [List.map_cons, List.getLastD_cons]
    exact getLastD_map_fin t b

/-- The last entry of a list belongs to its last-k slice, for k of at
least 1. -/
theorem getLastD_mem_lastN (qs : List ℚ) (h : qs ≠ []) (k : Nat)
    (hk : 1 ≤ k) : qs.getLastD 0 ∈ lastN k qs := by
  have hlen : 0 < qs.length := List.length_pos.mpr h
  have hdrlen : 0 < (qs.drop (qs.length - k)).length := by
    rw [List.length_drop]
    omega
  have hdrne : qs.drop (qs.length - k) ≠ [] :=
    List.ne_nil_of_length_pos hdrlen
  have hsplit : qs.take (qs.length - k) ++ qs.drop (qs.length - k) = qs :=
    List.take_append_drop _ _
  have hlast : qs.getLast? = (qs.drop (qs.length - k)).getLast? := by
    conv_lhs => rw [← hsplit]
    exact List.getLast?_append_of_ne_nil _ hdrne
  have h2 : (qs.drop (qs.length - k)).getLast? =
      some ((qs.drop (qs.length - k)).getLast hdrne) :=
    List.getLast?_eq_getLast _ _
  have h3 : qs.getLastD 0 = (qs.drop (qs.length - k)).getLast hdrne := by
    rw [List.getLastD_eq_getLast?, hlast, h2]
    rfl
  rw [lastN, h3]
  exact List.getLast_mem hdrne

/-- C8 counterexample: for the losses [-2, -4] — two finite entries,
threshold 1 > 0, the default min_epoch, patience and progress_length — the
last loss is below the minimum of the earlier ones, yet early_stop returns
no signal at all: for these negative losses the generalization ratio
current/best - 1 is +1, so the best-model rule does not fire, and the
progression rule then falls through. -/
theorem trainer_early_stop_counterexample :
    Trainer.early_stop [FP.fin (-2), FP.fin (-4)] 1 5 5 FP.ninf true = none
    ∧ 2 ≤ ([(-2 : ℚ), -4]).length
    ∧ (0 : ℚ) < 1
    ∧ ([(-2 : ℚ), -4]).getLastD 0 ≤ qmin ([(-2 : ℚ), -4]).dropLast := by
  refine ⟨?_, by decide, by decide, by decide⟩
  unfold Trainer.early_stop
  norm_num [FP.isNanOrInf, lenLtWarmup]
  rw [show allFinite [FP.fin (-2), FP.fin (-4)] = some [(-2 : ℚ), -4] from rfl]
  show earlyStopFinite [(-2 : ℚ), -4] 1 5 5 = none
  unfold earlyStopFinite
  norm_num [qmin, lastN, min_def]

/-- C8 (amended): early_stop returns no signal on an empty losses list;
returns SIGNAL_TERMINATE whenever terminate_on_nan is set and the last loss
is NaN or infinite, before any other rule; and for finite losses of length
at least 2 with positive threshold and the default min_epoch, returns
SIGNAL_BEST whenever the last loss is at most the minimum of the earlier
losses, provided that minimum is positive. -/
theorem trainer_early_stop_spec :
    (∀ (th : ℚ) (pl pa : Int) (me : FP) (tn : Bool),
      Trainer.early_stop [] th pl pa me tn = none)
    ∧ (∀ (losses : List FP) (th : ℚ) (pl pa : Int) (me : FP),
        losses ≠ [] → (losses.getLastD .nan).isNanOrInf = true →
        Trainer.early_stop losses th pl pa me true = some .terminate)
    ∧ (∀ (qs : List ℚ) (th : ℚ) (pl pa : Int),
        2 ≤ qs.length → 0 < th →
        0 < qmin qs.dropLast → qs.getLastD 0 ≤ qmin qs.dropLast →
        Trainer.early_stop (qs.map FP.fin) th pl pa FP.ninf true
          = some .best) := by
  refine ⟨fun _ _ _ _ _ => rfl, ?_, ?_⟩
  · intro losses th pl pa me hne hnan
    have h0 : ¬losses.length = 0 := by
      simpa [List.length_eq_zero] using hne
    unfold Trainer.early_stop
    rw [if_neg h0, hnan]
    rfl
  · intro qs th pl pa hlen hth hbest hcur
    obtain ⟨a, t, rfl⟩ : ∃ a t, qs = a :: t := by
      cases qs with
      | nil => simp at hlen
      | cons a t => exact ⟨a, t, rfl⟩
    have hne : (a :: t) ≠ ([] : List ℚ) := by simp
    have h0 : ¬((a :: t).map FP.fin).length = 0 := by simp
    have hlast : ((a :: t).map FP.fin).getLastD FP.nan
        = FP.fin ((a :: t).getLastD 0) := by
      simp only [List.map_cons, List.getLastD_cons]
      exact getLastD_map_fin t a
    have hwarm : lenLtWarmup ((a :: t).map FP.fin).length FP.ninf = false := by
      have h2 : (2 : ℚ) ≤ (((a :: t).map FP.fin).length : ℚ) := by
        rw [List.length_map]
        exact_mod_cast hlen
      simp only [lenLtWarmup, decide_eq_false_iff_not, not_lt]
      exact h2
    have hstop : earlyStopFinite (a :: t) th pl pa = some .best := by
      have hratio : (a :: t).getLastD 0 / qmin (a :: t).dropLast - 1 ≤ 0 := by
        have h1 : (a :: t).getLastD 0 / qmin (a :: t).dropLast ≤ 1 :=
          (div_le_one hbest).mpr hcur
        linarith
      unfold earlyStopFinite
      have hguard : ¬(1 < pa ∧ pa < ((a :: t).length : Int) ∧
          ((lastN pa.toNat (a :: t)).all
            (fun i =>
              decide (th / 2 ≤ i / qmin (a :: t).dropLast - 1))) = true) := by
        rintro ⟨h1, _, hall⟩
        have hk : 1 ≤ pa.toNat := by omega
        have hmem : (a :: t).getLastD 0 ∈ lastN pa.toNat (a :: t) :=
          getLastD_mem_lastN (a :: t) hne pa.toNat hk
        have hdec := (List.all_eq_true.mp hall) _ hmem
        have hle : th / 2 ≤ (a :: t).getLastD 0 / qmin (a :: t).dropLast - 1 :=
          of_decide_eq_true hdec
        linarith [half_pos hth]
      rw [if_neg (by simpa using hguard), if_pos hratio]
    unfold Trainer.early_stop
    rw [if_neg h0, hlast]
    show (if lenLtWarmup ((a :: t).map FP.fin).length FP.ninf = true
        then some Signal.best
        else match allFinite ((a :: t).map FP.fin) with
          | some qs => earlyStopFinite qs th pl pa
          | none => none) = some Signal.best
    rw [hwarm, if_neg (by simp), allFinite_map_fin]
    exact hstop

/-- C8 witness: the three rules at concrete loss lists. -/
theorem trainer_early_stop_witness :
    Trainer.early_stop [] 1 5 5 (FP.fin 0) true = none
    ∧ Trainer.early_stop [FP.nan] 1 5 5 FP.ninf true = some .terminate
    ∧ Trainer.early_stop (([2, 1] : List ℚ).map FP.fin) 1 5 5 FP.ninf
        true = some .best :=
  ⟨trainer_early_stop_spec.1 1 5 5 (FP.fin 0) true,
   trainer_early_stop_spec.2.1 [FP.nan] 1 5 5 FP.ninf (by decide) (by decide),
   trainer_early_stop_spec.2.2 [2, 1] 1 5 5 (by decide) (by decide)
     (by decide) (by decide)⟩

/-- C9: Scorer.__init__ accepts exactly the method strings whose lower-cased
form is cosine or svm and raises ValueError otherwise; Scorer.normalize and
Scorer.transform raise RuntimeError exactly when the scorer is not fitted
(the _w attribute does not exist), and in every case hand the scorer's state
back unchanged. -/
theorem scorer_guards_spec :
    (∀ (wc ld : Bool) (oracle : Mat → Mat) (labels : Option (List Int))
        (meth : String),
      (Scorer.init wc ld oracle meth labels = .error .valueError ↔
        ¬(meth.toLower = "cosine" ∨ meth.toLower = "svm"))
      ∧ ((∃ s, Scorer.init wc ld oracle meth labels = .ok s) ↔
        (meth.toLower = "cosine" ∨ meth.toLower = "svm")))
    ∧ (∀ (s : Scorer) (X : Mat),
        ((s.normalize X).2 = .error .runtimeError ↔ s.is_fitted = false)
        ∧ (s.normalize X).1 = s)
    ∧ (∀ (s : Scorer) (X : Mat),
        ((s.transform X).2 = .error .runtimeError ↔ s.is_fitted = false)
        ∧ (s.transform X).1 = s) := by
  refine ⟨?_, ?_, ?_⟩
  · intro wc ld oracle labels meth
    unfold Scorer.init
    by_cases h1 : meth.toLower = "cosine"
    · simp [h1]
    · by_cases h2 : meth.toLower = "svm" <;> simp [h1, h2]
  · intro s X
    cases hs : s.fitState with
    | none => simp [Scorer.normalize, Scorer.is_fitted, hs]
    | some fs => simp [Scorer.normalize, Scorer.is_fitted, hs]
  · intro s X
    cases hs : s.fitState with
    | none => simp [Scorer.transform, Scorer.is_fitted, hs]
    | some fs =>
      cases hm : s.method <;>
        simp [Scorer.transform, Scorer.is_fitted, hs, hm]

/-!
## _unit_len_norm lemmas
-/

/-- The sum of squares of a row is nonnegative. -/
theorem sumSq_nonneg (r : List ℝ) : 0 ≤ sumSq r := by
  apply List.sum_nonneg
  intro x hx
  obtain ⟨v, -, rfl⟩ := List.mem_map.mp hx
  exact mul_self_nonneg v

/-- Sum of squares over a cons cell. -/
theorem sumSq_cons (a : ℝ) (t : List ℝ) :
    sumSq (a :: t) = a * a + sumSq t := by
  simp [sumSq]

/-- A row has zero sum of squares exactly when it is entirely zero. -/
theorem sumSq_eq_zero_iff : ∀ r : List ℝ, (sumSq r = 0 ↔ ∀ v ∈ r, v = 0)
  | [] => by simp [sumSq]
  | a :: t => by
    rw [sumSq_cons,
      add_eq_zero_iff_of_nonneg (mul_self_nonneg a) (sumSq_nonneg t),
      mul_self_eq_zero, sumSq_eq_zero_iff t]
    simp

/-- Dividing a row by a constant divides its sum of squares by the square of
the constant (also at zero, where both sides degenerate to zero). -/
theorem sumSq_map_div (r : List ℝ) (c : ℝ) :
    sumSq (r.map (fun v => v / c)) = sumSq r / (c * c) := by
  induction r with
  | nil => simp [sumSq]
  | cons a t ih =>
    rw [List.map_cons, sumSq_cons, sumSq_cons, ih, add_div,
      div_mul_div_comm]

/-- An all-zero row passes through normRow unchanged: its norm is zero, and
the source replaces zero norms by 1 before dividing. -/
theorem normRow_zero (r : List ℝ) (h : sumSq r = 0) : normRow r = r := by
  simp [normRow, h, Real.sqrt_zero]

/-- A row with nonzero sum of squares comes out of normRow with sum of
squares 1. -/
theorem normRow_norm_one (r : List ℝ) (h : sumSq r ≠ 0) :
    sumSq (normRow r) = 1 := by
  have hpos : 0 < sumSq r := lt_of_le_of_ne (sumSq_nonneg r) (Ne.symm h)
  have hs : Real.sqrt (sumSq r) ≠ 0 :=
    ne_of_gt (Real.sqrt_pos.mpr hpos)
  simp only [normRow, if_neg hs]
  rw [sumSq_map_div, Real.mul_self_sqrt (sumSq_nonneg r)]
  exact div_self h

/-- A row of sum of squares 1 passes through normRow unchanged. -/
theorem normRow_of_sumSq_one (r : List ℝ) (h : sumSq r = 1) :
    normRow r = r := by
  simp [normRow, h, Real.sqrt_one]

/-- normRow is idempotent on every row. -/
theorem normRow_idem (r : List ℝ) : normRow (normRow r) = normRow r := by
  by_cases h : sumSq r = 0
  · rw [normRow_zero r h]
    exact normRow_zero r h
  · exact normRow_of_sumSq_one _ (normRow_norm_one r h)

/-- C10: _unit_len_norm normalises each row by its Euclidean norm: all-zero
rows come back unchanged, every other row of the result has norm exactly 1,
and applying the function twice equals applying it once. -/
theorem unit_len_norm_spec (X : Mat) :
    unit_len_norm X = X.map normRow
    ∧ (∀ r ∈ X, (∀ v ∈ r, v = 0) → normRow r = r)
    ∧ (∀ r ∈ X, (∃ v ∈ r, v ≠ 0) → Real.sqrt (sumSq (normRow r)) = 1)
    ∧ unit_len_norm (unit_len_norm X) = unit_len_norm X := by
  refine ⟨rfl, ?_, ?_, ?_⟩
  · intro r _ hz
    exact normRow_zero r ((sumSq_eq_zero_iff r).mpr hz)
  · rintro r - ⟨v, hv, hne⟩
    have h : sumSq r ≠ 0 := fun h0 => hne ((sumSq_eq_zero_iff r).mp h0 v hv)
    rw [normRow_norm_one r h, Real.sqrt_one]
  · unfold unit_len_norm
    rw [List.map_map]
    exact List.map_congr_left (fun r _ => normRow_idem r)

/-- C10 witness: a zero row unchanged, the row [3, 4] normalised to unit
norm, and idempotence, at one concrete matrix. -/
theorem unit_len_norm_witness :
    normRow [(0 : ℝ), 0] = [0, 0]
    ∧ Real.sqrt (sumSq (normRow [(3 : ℝ), 4])) = 1
    ∧ unit_len_norm (unit_len_norm [[(3 : ℝ), 4], [0, 0]])
        = unit_len_norm [[(3 : ℝ), 4], [0, 0]] := by
  obtain ⟨-, h2, h3, h4⟩ := unit_len_norm_spec [[(3 : ℝ), 4], [0, 0]]
  exact ⟨h2 [0, 0] (by simp) (by norm_num),
    h3 [3, 4] (by simp) ⟨3, by simp, by norm_num⟩, h4⟩

namespace StackedVAEModel

variable {t d v : Type} [Mul v]

/-- The bottom-up encode loop produces one posterior per (encoder, layer)
pair. -/
theorem encodeLoop_length (m : StackedVAEModel t d v) :
    ∀ (l : List ((t → t) × NamedLayer t d)) (h : t),
      ((m.encodeLoop l h).2).length = l.length
  | [], _ => rfl
  | (e, z) :: rest, h => by
    simp [encodeLoop, encodeLoop_length m rest]

/-- The top-down decode loop produces one prior per (decoder, layer) pair. -/
theorem decodeLoop_length (m : StackedVAEModel t d v) :
    ∀ (l : List ((t → t) × NamedLayer t d)) (h : t),
      ((m.decodeLoop l h).2).length = l.length
  | [], _ => rfl
  | (dl, z) :: rest, h => by
    simp [decodeLoop, decodeLoop_length m rest]

/-- encode splits as the top latent followed by the reversed bottom-up
ladder posteriors. -/
theorem encode_eq_cons (m : StackedVAEModel t d v) (x : t) :
    m.encode x = m.latentsLayer (m.encodeHidden x)
      :: (m.bottomUpPosteriors x).dropLast.reverse := by
  unfold encode bottomUpPosteriors encodeHidden
  simp

end StackedVAEModel

/-- C2: for a StackedVAE with L ladder levels, encode (only_encoding false)
returns exactly L+1 posteriors, the reverse of the bottom-up production
order, with the top-most latent first; decode (only_decoding false) on a
non-empty latents tuple returns exactly L+1 elements: the observation
distribution first, then the L ladder priors in top-down production
order. -/
theorem stackedvae_encode_decode_spec {t d v : Type} [Mul v]
    (m : StackedVAEModel t d v) (L : Nat)
    (hE : m.ladder_encoder.length = L) (hQ : m.ladder_qz.length = L)
    (hD : m.ladder_decoder.length = L) (hP : m.ladder_pz.length = L)
    (x : t) :
    (m.encode x).length = L + 1
    ∧ m.encode x = (m.bottomUpPosteriors x).reverse
    ∧ (m.encode x).head? = some (m.latentsLayer (m.encodeHidden x))
    ∧ (∀ (l0 : d) (rest : List d),
        m.decode (l0 :: rest)
          = some (m.observationLayer (m.decodeHidden l0)
              :: (m.topDownPass l0).2))
    ∧ (∀ l0 : d, ((m.topDownPass l0).2).length = L)
    ∧ (∀ (l0 : d) (rest : List d),
        ((m.decode (l0 :: rest)).getD []).length = L + 1) := by
  have hpass : ∀ l0 : d, ((m.topDownPass l0).2).length = L := by
    intro l0
    unfold StackedVAEModel.topDownPass
    rw [StackedVAEModel.decodeLoop_length, List.length_zip,
      List.length_reverse, hD, hP]
    simp
  refine ⟨?_, rfl, ?_, fun _ _ => rfl, hpass, ?_⟩
  · unfold StackedVAEModel.encode StackedVAEModel.bottomUpPosteriors
    rw [List.length_reverse, List.length_append,
      StackedVAEModel.encodeLoop_length, List.length_zip, hE, hQ]
    simp
  · rw [StackedVAEModel.encode_eq_cons]
    rfl
  · intro l0 rest
    show ((some (m.observationLayer (m.decodeHidden l0)
        :: (m.topDownPass l0).2)).getD []).length = L + 1
    simp [hpass l0]

namespace StackedVAEModel

variable {t d v : Type} [Mul v]

/-- With all_standard_prior off, the elbo loop zips keys from the ladder_qz
layers (bottom-up order) against the (posterior, prior) pairs it was handed
(top-down order). -/
theorem elboExtra_eq_false (m : StackedVAEModel t d v)
    (hsp : m.all_standard_prior = false) :
    ∀ (qs ps : List d) (zs : List (NamedLayer t d)),
      m.elboExtra qs ps zs
        = List.zipWith
            (fun (z : NamedLayer t d) (qp : d × d) =>
              ("kl_" ++ z.name, m.beta * m.kl_div qp.1 qp.2))
            zs (qs.zip ps)
  | [], ps, zs => by cases ps <;> cases zs <;> simp [elboExtra]
  | q :: qs, [], zs => by cases zs <;> simp [elboExtra]
  | q :: qs, p :: ps, [] => by simp [elboExtra]
  | q :: qs, p :: ps, z :: zs => by
    simp [elboExtra, hsp, elboExtra_eq_false m hsp qs ps zs]

/-- With all_standard_prior on, each zipped triple contributes a klq_ and a
klp_ entry, keys again from the bottom-up layer names, divergences from the
top-down pairs. -/
theorem elboExtra_eq_true (m : StackedVAEModel t d v)
    (hsp : m.all_standard_prior = true) :
    ∀ (qs ps : List d) (zs : List (NamedLayer t d)),
      m.elboExtra qs ps zs
        = (zs.zip (qs.zip ps)).flatMap
            (fun zqp =>
              [("klq_" ++ zqp.1.name, m.beta * m.klSelf zqp.2.1),
               ("klp_" ++ zqp.1.name, m.beta * m.klSelf zqp.2.2)])
  | [], ps, zs => by cases ps <;> cases zs <;> simp [elboExtra]
  | q :: qs, [], zs => by cases zs <;> simp [elboExtra]
  | q :: qs, p :: ps, [] => by simp [elboExtra]
  | q :: qs, p :: ps, z :: zs => by
    simp [elboExtra, hsp, elboExtra_eq_true m hsp qs ps zs]

/-- Entry count of the elbo loop, all_standard_prior off: one entry per
zipped triple. -/
theorem elboExtra_length_false (m : StackedVAEModel t d v)
    (hsp : m.all_standard_prior = false) :
    ∀ (qs ps : List d) (zs : List (NamedLayer t d)),
      (m.elboExtra qs ps zs).length = min (min qs.length ps.length) zs.length
  | [], ps, zs => by cases ps <;> cases zs <;> simp [elboExtra]
  | q :: qs, [], zs => by cases zs <;> simp [elboExtra]
  | q :: qs, p :: ps, [] => by simp [elboExtra]
  | q :: qs, p :: ps, z :: zs => by
    simp [elboExtra, hsp, elboExtra_length_false m hsp qs ps zs]
    omega

/-- Entry count of the elbo loop, all_standard_prior on: two entries per
zipped triple. -/
theorem elboExtra_length_true (m : StackedVAEModel t d v)
    (hsp : m.all_standard_prior = true) :
    ∀ (qs ps : List d) (zs : List (NamedLayer t d)),
      (m.elboExtra qs ps zs).length
        = 2 * min (min qs.length ps.length) zs.length
  | [], ps, zs => by cases ps <;> cases zs <;> simp [elboExtra]
  | q :: qs, [], zs => by cases zs <;> simp [elboExtra]
  | q :: qs, p :: ps, [] => by simp [elboExtra]
  | q :: qs, p :: ps, z :: zs => by
    simp [elboExtra, hsp, elboExtra_length_true m hsp qs ps zs]
    omega

end StackedVAEModel

/-- C1 (amended): elbo_components returns the parent log-likelihood
dictionary unchanged and the parent KL dictionary extended by the ladder
entries; with all_standard_prior false there is exactly one extra entry per
ladder latent (two — klq_ and klp_ — when it is true), each divergence
computed between a posterior and the prior of the same latent, but the keys
are taken from the ladder_qz layer names in bottom-up order while the
(posterior, prior) pairs arrive in top-down order, so for two or more ladder
levels the entry keyed with latent i's name holds the beta-scaled divergence
of latent L-1-i. -/
theorem stackedvae_elbo_amended {t d v : Type} [Mul v]
    (m : StackedVAEModel t d v) (L : Nat)
    (hE : m.ladder_encoder.length = L) (hQ : m.ladder_qz.length = L)
    (hD : m.ladder_decoder.length = L) (hP : m.ladder_pz.length = L)
    (x : t) :
    (m.elbo_components x).1 = m.parent_llk x
    ∧ (m.elbo_components x).2
        = m.parent_kl x
          ++ m.elboExtra ((m.bottomUpPosteriors x).dropLast.reverse)
              ((m.topDownPass (m.latentsLayer (m.encodeHidden x))).2)
              m.ladder_qz
    ∧ (m.all_standard_prior = false →
        m.elboExtra ((m.bottomUpPosteriors x).dropLast.reverse)
            ((m.topDownPass (m.latentsLayer (m.encodeHidden x))).2)
            m.ladder_qz
          = List.zipWith
              (fun (z : NamedLayer t d) (qp : d × d) =>
                ("kl_" ++ z.name, m.beta * m.kl_div qp.1 qp.2))
              m.ladder_qz
              (((m.bottomUpPosteriors x).dropLast.reverse).zip
                ((m.topDownPass (m.latentsLayer (m.encodeHidden x))).2)))
    ∧ (m.all_standard_prior = true →
        m.elboExtra ((m.bottomUpPosteriors x).dropLast.reverse)
            ((m.topDownPass (m.latentsLayer (m.encodeHidden x))).2)
            m.ladder_qz
          = ((m.ladder_qz.zip
              (((m.bottomUpPosteriors x).dropLast.reverse).zip
                ((m.topDownPass (m.latentsLayer (m.encodeHidden x))).2))).flatMap
              (fun zqp =>
                [("klq_" ++ zqp.1.name, m.beta * m.klSelf zqp.2.1),
                 ("klp_" ++ zqp.1.name, m.beta * m.klSelf zqp.2.2)])))
    ∧ (m.all_standard_prior = false →
        (m.elboExtra ((m.bottomUpPosteriors x).dropLast.reverse)
            ((m.topDownPass (m.latentsLayer (m.encodeHidden x))).2)
            m.ladder_qz).length = L)
    ∧ (m.all_standard_prior = true →
        (m.elboExtra ((m.bottomUpPosteriors x).dropLast.reverse)
            ((m.topDownPass (m.latentsLayer (m.encodeHidden x))).2)
            m.ladder_qz).length = 2 * L) := by
  have hcons := m.encode_eq_cons x
  have hqlen : ((m.bottomUpPosteriors x).dropLast.reverse).length = L := by
    unfold StackedVAEModel.bottomUpPosteriors
    rw [List.dropLast_concat, List.length_reverse,
      StackedVAEModel.encodeLoop_length, List.length_zip, hE, hQ]
    simp
  have hplen :
      ((m.topDownPass (m.latentsLayer (m.encodeHidden x))).2).length = L := by
    unfold StackedVAEModel.topDownPass
    rw [StackedVAEModel.decodeLoop_length, List.length_zip,
      List.length_reverse, hD, hP]
    simp
  have hmain : m.elbo_components x
      = (m.parent_llk x,
          m.parent_kl x
            ++ m.elboExtra ((m.bottomUpPosteriors x).dropLast.reverse)
                ((m.topDownPass (m.latentsLayer (m.encodeHidden x))).2)
                m.ladder_qz) := by
    unfold StackedVAEModel.elbo_components
    rw [hcons]
    simp only [StackedVAEModel.decode, List.drop_succ_cons, List.drop_zero,
      Option.getD_some]
  refine ⟨by rw [hmain], by rw [hmain], ?_, ?_, ?_, ?_⟩
  · intro hsp
    exact m.elboExtra_eq_false hsp _ _ _
  · intro hsp
    exact m.elboExtra_eq_true hsp _ _ _
  · intro hsp
    rw [m.elboExtra_length_false hsp, hqlen, hplen, hQ]
    simp
  · intro hsp
    rw [m.elboExtra_length_true hsp, hqlen, hplen, hQ]
    simp

/-- A concrete two-level StackedVAE over natural-number tensors and
distributions, with integer KL values: layers are simple arithmetic maps, so
every pass evaluates by computation.  kl_div q p = 1000 q + p makes distinct
(posterior, prior) pairs give distinct divergences. -/
def demoVAE : StackedVAEModel Nat Nat Int where
  encoder := fun h => h + 1
  decoder := fun h => h + 1
  observationLayer := fun h => 2 * h
  latentsLayer := fun h => 3 * h
  ladder_encoder := [fun h => h + 10, fun h => h + 20]
  ladder_decoder := [fun h => h + 30, fun h => h + 40]
  ladder_qz :=
    [{ name := "qZ0", call := fun h => 5 * h },
     { name := "qZ1", call := fun h => 7 * h }]
  ladder_pz :=
    [{ name := "pZ0", call := fun h => 11 * h },
     { name := "pZ1", call := fun h => 13 * h }]
  toTensor := fun q => q
  distMean := fun q => q
  stochastic_inference := true
  only_mean_up := false
  all_standard_prior := false
  beta := 2
  kl_div := fun q p => 1000 * (q : Int) + (p : Int)
  klSelf := fun q => (q : Int)
  parent_llk := fun _ => [("llk_obs", 0)]
  parent_kl := fun _ => [("kl_latents", 0)]

/-- C2 witness: the encode/decode shape facts at the concrete two-level
model. -/
theorem stackedvae_encode_decode_witness :
    (demoVAE.encode 0).length = 2 + 1
    ∧ demoVAE.encode 0 = (demoVAE.bottomUpPosteriors 0).reverse
    ∧ (demoVAE.encode 0).head?
        = some (demoVAE.latentsLayer (demoVAE.encodeHidden 0))
    ∧ (∀ (l0 : Nat) (rest : List Nat),
        demoVAE.decode (l0 :: rest)
          = some (demoVAE.observationLayer (demoVAE.decodeHidden l0)
              :: (demoVAE.topDownPass l0).2))
    ∧ (∀ l0 : Nat, ((demoVAE.topDownPass l0).2).length = 2)
    ∧ (∀ (l0 : Nat) (rest : List Nat),
        ((demoVAE.decode (l0 :: rest)).getD []).length = 2 + 1) :=
  stackedvae_encode_decode_spec demoVAE 2 rfl rfl rfl rfl 0

/-- C1 counterexample: in the concrete two-level model the KL entry keyed
kl_qZ0 — the name of the bottom ladder latent — carries the beta-scaled
divergence of the TOP (posterior, prior) pair, not the divergence of the
bottom latent's own posterior and prior as the claim states. -/
theorem stackedvae_elbo_counterexample :
    ((demoVAE.elbo_components 0).2).getD 1 ("", 0)
        = ("kl_qZ0",
            demoVAE.beta * demoVAE.kl_div
              (((demoVAE.bottomUpPosteriors 0).dropLast.reverse).getD 0 0)
              (((demoVAE.topDownPass
                  ((demoVAE.encode 0).headD 0)).2).getD 0 0))
    ∧ ((demoVAE.elbo_components 0).2).getD 1 ("", 0)
        ≠ ("kl_qZ0",
            demoVAE.beta * demoVAE.kl_div
              ((demoVAE.bottomUpPosteriors 0).getD 0 0)
              (((demoVAE.topDownPass
                  ((demoVAE.encode 0).headD 0)).2).getD 1 0)) := by
  decide

/-- C1 witness: the amended elbo_components equations at the concrete
two-level model. -/
theorem stackedvae_elbo_witness :
    (demoVAE.elbo_components 0).1 = demoVAE.parent_llk 0
    ∧ (demoVAE.elbo_components 0).2
        = demoVAE.parent_kl 0
          ++ demoVAE.elboExtra
              ((demoVAE.bottomUpPosteriors 0).dropLast.reverse)
              ((demoVAE.topDownPass
                  (demoVAE.latentsLayer (demoVAE.encodeHidden 0))).2)
              demoVAE.ladder_qz
    ∧ (demoVAE.all_standard_prior = false →
        demoVAE.elboExtra ((demoVAE.bottomUpPosteriors 0).dropLast.reverse)
            ((demoVAE.topDownPass
                (demoVAE.latentsLayer (demoVAE.encodeHidden 0))).2)
            demoVAE.ladder_qz
          = List.zipWith
              (fun (z : NamedLayer Nat Nat) (qp : Nat × Nat) =>
                ("kl_" ++ z.name, demoVAE.beta * demoVAE.kl_div qp.1 qp.2))
              demoVAE.ladder_qz
              (((demoVAE.bottomUpPosteriors 0).dropLast.reverse).zip
                ((demoVAE.topDownPass
                    (demoVAE.latentsLayer (demoVAE.encodeHidden 0))).2)))
    ∧ (demoVAE.all_standard_prior = true →
        demoVAE.elboExtra ((demoVAE.bottomUpPosteriors 0).dropLast.reverse)
            ((demoVAE.topDownPass
                (demoVAE.latentsLayer (demoVAE.encodeHidden 0))).2)
            demoVAE.ladder_qz
          = ((demoVAE.ladder_qz.zip
              (((demoVAE.bottomUpPosteriors 0).dropLast.reverse).zip
                ((demoVAE.topDownPass
                    (demoVAE.latentsLayer (demoVAE.encodeHidden 0))).2))).flatMap
              (fun zqp =>
                [("klq_" ++ zqp.1.name, demoVAE.beta * demoVAE.klSelf zqp.2.1),
                 ("klp_" ++ zqp.1.name,
                   demoVAE.beta * demoVAE.klSelf zqp.2.2)])))
    ∧ (demoVAE.all_standard_prior = false →
        (demoVAE.elboExtra ((demoVAE.bottomUpPosteriors 0).dropLast.reverse)
            ((demoVAE.topDownPass
                (demoVAE.latentsLayer (demoVAE.encodeHidden 0))).2)
            demoVAE.ladder_qz).length = 2)
    ∧ (demoVAE.all_standard_prior = true →
        (demoVAE.elboExtra ((demoVAE.bottomUpPosteriors 0).dropLast.reverse)
            ((demoVAE.topDownPass
                (demoVAE.latentsLayer (demoVAE.encodeHidden 0))).2)
            demoVAE.ladder_qz).length = 2 * 2) :=
  stackedvae_elbo_amended demoVAE 2 rfl rfl rfl rfl 0

/-- C7: a DistributionDense is built with a Dense layer sized
posterior.params_size(units); calling it with mode Statistic.DIST returns
the distribution obtained by the Dense layer followed by the posterior
DistributionLambda — a distribution value, not a raw tensor — and records it
so that the posterior property afterwards returns that same distribution. -/
theorem distribution_dense_call_dist_spec {t d : Type} :
    (∀ (units : Nat) (post : PosteriorSpec t d) (dl : Nat → t → t)
        (cm : Statistic) (wd : Nat) (sampling : Int → d → t)
        (mmean mvar : d → t) (sq : t → t),
      (DistributionDense.init units post dl cm wd sampling mmean mvar
          sq).denseUnits = post.paramsSize units
      ∧ (DistributionDense.init units post dl cm wd sampling mmean mvar
          sq).dense = dl (post.paramsSize units))
    ∧ (∀ (m : DistributionDense t d) (x : t) (xd : Nat) (n : Int),
        xd = m.wdtype →
        m.call x xd n (some Statistic.DIST)
          = .ok (.dist (m.distributionFn x),
              { m with last_distribution := some (m.distributionFn x) })
        ∧ ({ m with
              last_distribution := some (m.distributionFn x) }).posterior
          = some (m.distributionFn x)) := by
  refine ⟨fun _ _ _ _ _ _ _ _ _ => ⟨rfl, rfl⟩, ?_⟩
  intro m x xd n h
  constructor
  · unfold DistributionDense.call
    rw [if_neg (by simp [h])]
    rfl
  · rfl

/-- A concrete DistributionDense over natural-number tensors and
distributions: params_size doubles the unit count, the posterior lambda adds
100. -/
def demoDense : DistributionDense Nat Nat :=
  DistributionDense.init 4 ⟨fun u => 2 * u, fun x => x + 100⟩
    (fun pu => fun x => x * pu) Statistic.SAMPLE 7
    (fun _ q => q) (fun q => q) (fun q => q) (fun x => x)

/-- C7 witness: the Dense sizing and the DIST-mode call at the concrete
layer. -/
theorem distribution_dense_witness :
    demoDense.denseUnits = 2 * 4
    ∧ demoDense.call 5 7 1 (some Statistic.DIST)
        = .ok (.dist (demoDense.distributionFn 5),
            { demoDense with
                last_distribution := some (demoDense.distributionFn 5) })
    ∧ ({ demoDense with
          last_distribution := some (demoDense.distributionFn 5) }).posterior
        = some (demoDense.distributionFn 5) :=
  ⟨(distribution_dense_call_dist_spec.1 4 ⟨fun u => 2 * u, fun x => x + 100⟩
      (fun pu => fun x => x * pu) Statistic.SAMPLE 7
      (fun _ q => q) (fun q => q) (fun q => q) (fun x => x)).1,
   (distribution_dense_call_dist_spec.2 demoDense 5 7 1 rfl).1,
   (distribution_dense_call_dist_spec.2 demoDense 5 7 1 rfl).2⟩
